import Mathlib

/-!
Shallow embedding of the client-state reconciliation core of the repository
(ClientUser._patch, ClientApplication._patch, the UserNoteUpdate action and
the ready/bootstrap handler), together with theorems settling the spec
claims about it.

JavaScript values that matter to the code (undefined vs null vs a string or
boolean) are modelled by an explicit value type; the ordered Map-like
Collection of the library is modelled by an insertion-ordered association
list whose set-on-existing-key keeps the original position, as Map does.
-/

/-- The fragment of the JavaScript value domain the embedded code observes:
the code distinguishes undefined (absent property / Map.get miss), null,
booleans and strings. -/
inductive JSVal where
  | undef
  | null
  | bool (b : Bool)
  | str (s : String)
deriving Repr, DecidableEq

/-- The library Collection (extends Map): insertion-ordered key/value pairs. -/
def Coll (α : Type) : Type := List (String × α)

instance (α : Type) [DecidableEq α] : DecidableEq (Coll α) := by
  unfold Coll; infer_instance

instance (α : Type) [Repr α] : Repr (Coll α) := by
  unfold Coll; infer_instance

/-- Collection.get / Map.get: first binding for the key, none on a miss. -/
def cget {α : Type} (c : Coll α) (k : String) : Option α :=
  match c with
  | [] => none
  | (k1, v1) :: rest => if k1 = k then some v1 else cget rest k

/-- Collection.set / Map.set: overwrite in place when the key exists
(keeping its insertion position), append otherwise. -/
def cset {α : Type} (c : Coll α) (k : String) (v : α) : Coll α :=
  match c with
  | [] => [(k, v)]
  | (k1, v1) :: rest => if k1 = k then (k, v) :: rest else (k1, v1) :: cset rest k v

/-- Modelled from the spec: the library Collection class itself is not in
the sources, and the spec fixes its read on a missing key to the explicit
not-found signal the note handler works with — get on an absent key
resolves to null (never throws). -/
def jsGet (c : Coll JSVal) (k : String) : JSVal :=
  match cget c k with
  | some v => v
  | none => JSVal.null

/-- A cached user record in the global user cache (identity fields of the
generic user entity that the claims inspect). -/
structure UserData where
  id : String
  username : JSVal
deriving Repr, DecidableEq

/-- A guild payload entry; the ready handler tags it with the shard id
before registering it. -/
structure GuildData where
  id : String
  shardID : Option Nat
deriving Repr, DecidableEq

/-- One entry of the user_guild_settings list of the handshake payload. -/
structure GuildSettingEntry where
  guild_id : String
  dat : String
deriving Repr, DecidableEq

/-- A relationship record of the handshake payload. -/
structure Relationship where
  user : UserData
  type : Nat
deriving Repr, DecidableEq

/-- The partial payload accepted by ClientUser._patch. A field is some v
when the corresponding key is present in the JSON object and absent
otherwise; boolean-typed keys carry booleans (the code coerces any
non-boolean to null via its typeof checks). -/
structure UserPayload where
  id : String := ""
  username : Option String := none
  verified : Option Bool := none
  email : Option String := none
  premium : Option Bool := none
  mfa_enabled : Option Bool := none
  mobile : Option Bool := none
  user_settings : Option String := none
  user_guild_settings : Option (List GuildSettingEntry) := none
  token : Option String := none
deriving Repr, DecidableEq

/-- The Authoritative Account Entity (ClientUser): the fields assigned by
ClientUser._patch plus the inherited identity fields the claims mention
(username from the generic user base, bot used by edit). -/
structure ClientUserEnt where
  id : String
  username : JSVal
  bot : Bool
  verified : JSVal
  email : JSVal
  premium : JSVal
  mfaEnabled : JSVal
  mobile : JSVal
  settings : Option String
  guildSettings : Coll GuildSettingEntry
  friends : Coll UserData
  blocked : Coll UserData
  notes : Coll JSVal
deriving Repr, DecidableEq

/-- Embedding of ClientUser._patch (src/src/structures/ClientUser.js,
lines 21-104). Returns the patched entity together with the new value of
the client-wide credential slot (this.client.token), which line 103 writes
as a side effect when data.token is truthy. The super._patch call on the
generic user base is not in the sources; it is modelled from the spec:
identity fields follow the presence-in-payload contract of the Entity Patch
Merger (present key overwrites, absent key retains the prior value). -/
def clientUserPatch (e : ClientUserEnt) (ctoken : JSVal) (d : UserPayload) :
    ClientUserEnt × JSVal :=
  let username := match d.username with
    | some s => JSVal.str s
    | none => e.username
  let verified := match d.verified with
    | some b => JSVal.bool b
    | none => e.verified
  let email := match d.email with
    | some s => JSVal.str s
    | none => JSVal.undef
  let premium := match d.premium with
    | some b => JSVal.bool b
    | none => JSVal.null
  let mfaEnabled := match d.mfa_enabled with
    | some b => JSVal.bool b
    | none => if e.mfaEnabled = JSVal.undef then JSVal.null else e.mfaEnabled
  let mobile := match d.mobile with
    | some b => JSVal.bool b
    | none => JSVal.null
  let settings := d.user_settings
  let guildSettings : Coll GuildSettingEntry := match d.user_guild_settings with
    | some l => l.foldl (fun gs s => cset gs s.guild_id s) []
    | none => []
  let ctoken1 := match d.token with
    | some t => if t = "" then ctoken else JSVal.str t
    | none => ctoken
  ({ id := e.id, username := username, bot := e.bot, verified := verified,
     email := email, premium := premium, mfaEnabled := mfaEnabled,
     mobile := mobile, settings := settings, guildSettings := guildSettings,
     friends := [], blocked := [], notes := [] }, ctoken1)

/-- The event payload of a note update push event. -/
structure NoteEvent where
  id : String
  note : String
deriving Repr, DecidableEq

/-- One observable side effect of the note-update handler, in the order the
handler performs them: the cache commit and the emitted change
notification (Events.USER_NOTE_UPDATE with user id, old note, new note). -/
inductive NoteEff where
  | cacheSet (id : String) (v : JSVal)
  | emit (id : String) (oldV newV : JSVal)
deriving Repr, DecidableEq

/-- What UserNoteUpdateAction.handle produces: its ordered effect trace and
the returned object. -/
structure NoteHandleRes where
  trace : List NoteEff
  old : JSVal
  updated : JSVal
deriving Repr, DecidableEq

/-- Embedding of UserNoteUpdateAction.handle (src/unnamed/part_000, lines
5-19) over the notes cache: reads oldNote = notes.get(data.id) (the
spec-modelled miss value null when absent), normalizes
note = data.note.length ? data.note : null, then in order commits
notes.set(data.id, note) and emits the notification, and returns
(old: oldNote, updated: note). -/
def noteUpdateHandle (notes : Coll JSVal) (d : NoteEvent) : NoteHandleRes :=
  let oldNote := jsGet notes d.id
  let note := if d.note = "" then JSVal.null else JSVal.str d.note
  { trace := [NoteEff.cacheSet d.id note, NoteEff.emit d.id oldNote note],
    old := oldNote,
    updated := note }

/-- Replay a prefix of the handler's effect trace over the notes cache:
only cacheSet mutates the cache; an emit leaves it unchanged. The cache an
observer sees while a notification at position j of the trace runs is the
replay of the first j effects. -/
def applyNoteEffs (notes : Coll JSVal) (effs : List NoteEff) : Coll JSVal :=
  match effs with
  | [] => notes
  | NoteEff.cacheSet k v :: rest => applyNoteEffs (cset notes k v) rest
  | NoteEff.emit _ _ _ :: rest => applyNoteEffs notes rest

/-- The client-wide state the embedded handlers read and write: the
singleton Authoritative Account Entity slot (client.user), the global user
cache (client.users), the guild registry (client.guilds) and the
process-wide credential slot (client.token). -/
structure ClientState where
  user : Option ClientUserEnt
  users : Coll UserData
  guilds : Coll GuildData
  token : JSVal
deriving Repr, DecidableEq

/-- Modelled from the spec: client.users.add (the user manager, not in the
sources) resolves/inserts the referenced user into the global user cache
keyed by its id — the cached record for that id is refreshed with the
supplied record's data and the record now in the cache is returned. -/
def usersAdd (cache : Coll UserData) (u : UserData) : Coll UserData × UserData :=
  (cset cache u.id u, u)

/-- Modelled from the spec: client.guilds.add (the guild registry, an
external collaborator not in the sources) registers a guild keyed by its
id. The ready handler tags each guild with the shard id before
registering. -/
def guildsAdd (gs : Coll GuildData) (g : GuildData) : Coll GuildData :=
  cset gs g.id g

/-- The relationship loop of the ready handler (src/unnamed/part_001,
lines 23-30): resolve each record's user into the global cache, then put
type-1 users into friends, type-2 users into blocked, and ignore every
other type code. Threads (users cache, friends, blocked). -/
def relLoop (users : Coll UserData) (friends blocked : Coll UserData) :
    List Relationship → Coll UserData × Coll UserData × Coll UserData
  | [] => (users, friends, blocked)
  | rel :: rest =>
    let resolved := usersAdd users rel.user
    if rel.type = 1 then
      relLoop resolved.1 (cset friends resolved.2.id resolved.2) blocked rest
    else if rel.type = 2 then
      relLoop resolved.1 friends (cset blocked resolved.2.id resolved.2) rest
    else
      relLoop resolved.1 friends blocked rest

/-- The notes loop of the ready handler (src/unnamed/part_001, lines
32-39): for every entry, normalize an empty raw string to null and set it
under the user id. -/
def notesLoop (notes : Coll JSVal) : List (String × String) → Coll JSVal
  | [] => notes
  | (uid, raw) :: rest =>
    notesLoop (cset notes uid (if raw = "" then JSVal.null else JSVal.str raw)) rest

/-- The guild loop of the ready handler (src/unnamed/part_001, lines
18-21): tag each guild with the shard id and register it. -/
def guildLoop (gs : Coll GuildData) (shardId : Nat) : List GuildData → Coll GuildData
  | [] => gs
  | g :: rest => guildLoop (guildsAdd gs { g with shardID := some shardId }) shardId rest

/-- The decoded handshake (ready) payload, the d field of the envelope. -/
structure ReadyData where
  user : UserPayload
  guilds : List GuildData
  relationships : List Relationship
  notes : Option (List (String × String))
  user_settings : Option String
  user_guild_settings : Option (List GuildSettingEntry)
deriving Repr, DecidableEq

/-- The entity object as the ClientUser constructor receives it, before any
patch runs: every patched field still undefined, collections empty.
Modelled from the spec: the generic user base class (not in the sources)
applies the patch merger to this fresh object during construction. -/
def freshClientUser (id : String) : ClientUserEnt :=
  { id := id, username := JSVal.undef, bot := false, verified := JSVal.undef,
    email := JSVal.undef, premium := JSVal.undef, mfaEnabled := JSVal.undef,
    mobile := JSVal.undef, settings := none, guildSettings := [],
    friends := [], blocked := [], notes := [] }

/-- The identity projection of the client user stored into the global user
cache at creation (client.users.cache.set(clientUser.id, clientUser)). -/
def identityOf (e : ClientUserEnt) : UserData :=
  { id := e.id, username := e.username }

/-- Read the entity's friends mapping off the client state (empty before
the entity exists). -/
def clientFriends (st : ClientState) : Coll UserData :=
  match st.user with
  | some u => u.friends
  | none => []

/-- Read the entity's blocked mapping off the client state. -/
def clientBlocked (st : ClientState) : Coll UserData :=
  match st.user with
  | some u => u.blocked
  | none => []

/-- Read the entity's notes mapping off the client state. -/
def clientNotes (st : ClientState) : Coll JSVal :=
  match st.user with
  | some u => u.notes
  | none => []

/-- Update the singleton entity in place (no-op when it does not exist). -/
def withUser (st : ClientState) (f : ClientUserEnt → ClientUserEnt) : ClientState :=
  { st with user := st.user.map f }

/-- Embedding of the ready/bootstrap handler (src/unnamed/part_001). If
client.user exists it is patched in place with payload.user; otherwise
user_settings and user_guild_settings are attached onto payload.user, the
entity is constructed from it (the constructor applies the patch merger to
a fresh object) and registered as the singleton and in the global user
cache. Then guilds are tagged with the shard id and registered,
relationships are classified into friends/blocked, and, when the notes key
is present, notes are normalized and inserted. shard.checkReady() is an
external signal with no effect on this state. -/
def readyHandler (st : ClientState) (pd : ReadyData) (shardId : Nat) : ClientState :=
  let st1 : ClientState :=
    match st.user with
    | some u =>
      let patched := clientUserPatch u st.token pd.user
      { st with user := some patched.1, token := patched.2 }
    | none =>
      let userAug := { pd.user with user_settings := pd.user_settings,
                                    user_guild_settings := pd.user_guild_settings }
      let made := clientUserPatch (freshClientUser userAug.id) st.token userAug
      { st with user := some made.1, token := made.2,
                users := cset st.users made.1.id (identityOf made.1) }
  let st2 := { st1 with guilds := guildLoop st1.guilds shardId pd.guilds }
  let rl := relLoop st2.users (clientFriends st2) (clientBlocked st2) pd.relationships
  let st3 := withUser { st2 with users := rl.1 }
    (fun u => { u with friends := rl.2.1, blocked := rl.2.2 })
  match pd.notes with
  | some entries => withUser st3 (fun u => { u with notes := notesLoop u.notes entries })
  | none => st3

/-- An error rejected by the apiClient collaborator. -/
structure ApiErr where
  msg : String
deriving Repr, DecidableEq

/-- The passcode argument of ClientUser.edit: either a non-object value
(used directly as the password) or an object carrying an MFA code and a
password. -/
inductive Passcode where
  | scalar (v : JSVal)
  | obj (mfaCode : Option String) (password : Option String)
deriving Repr, DecidableEq

/-- The data argument of ClientUser.edit, i.e. the request body; edit
attaches password/code onto it for non-bot accounts before the request. -/
structure EditData where
  username : Option String := none
  email : Option String := none
  new_password : Option String := none
  avatar : Option String := none
  password : JSVal := JSVal.undef
  code : JSVal := JSVal.undef
deriving Repr, DecidableEq

/-- JS property read of an optional string: undefined when absent. -/
def jsOfOpt (o : Option String) : JSVal :=
  match o with
  | some s => JSVal.str s
  | none => JSVal.undef

/-- The passcode attachment of ClientUser.edit (lines 116-123): non-object
passcodes become data.password; objects contribute data.code and
data.password. -/
def attachPasscode (d : EditData) (pc : Passcode) : EditData :=
  match pc with
  | Passcode.scalar v => { d with password := v }
  | Passcode.obj mfa pw => { d with code := jsOfOpt mfa, password := jsOfOpt pw }

/-- Modelled from the spec: client.actions.UserUpdate.handle (not in the
sources) follows the delta-handler template specialized to the profile:
it merges the canonical payload into the Authoritative Account Entity via
the patch merger (with its credential side channel) and reports the
updated entity, or reports nothing when the merge changes nothing. -/
def userUpdateHandle (st : ClientState) (d : UserPayload) :
    ClientState × Option ClientUserEnt :=
  match st.user with
  | none => (st, none)
  | some u =>
    let patched := clientUserPatch u st.token d
    if patched.1 = u then (st, none)
    else ({ st with user := some patched.1, token := patched.2 }, some patched.1)

/-- Embedding of ClientUser.edit (src/src/structures/ClientUser.js, lines
115-133). The apiClient round trip is the resp argument: the PATCH
/users/@me response, or its rejection. On rejection the then-callback
never runs, so the state is returned untouched and the failure propagates.
On success the response token is written to the credential slot
(line 128, unconditional) and the payload goes through the UserUpdate
action; its updated entity, or the entity itself, is the result. -/
def clientUserEdit (st : ClientState) (u : ClientUserEnt) (d : EditData)
    (pc : Passcode) (resp : Except ApiErr UserPayload) :
    ClientState × Except ApiErr ClientUserEnt :=
  let _req := if u.bot then d else attachPasscode d pc
  match resp with
  | Except.error e => (st, Except.error e)
  | Except.ok newData =>
    let st1 := { st with token := jsOfOpt newData.token }
    let handled := userUpdateHandle st1 newData
    match handled.2 with
    | some updated => (handled.1, Except.ok updated)
    | none => (handled.1, Except.ok u)

/-- A team payload, wrapped by the Team structure (not in the sources;
modelled from the spec as carrying the payload's team data). -/
structure TeamData where
  id : String
  name : String
deriving Repr, DecidableEq

/-- The owner of an OAuth application: the tagged union the spec
describes. -/
inductive AppOwner where
  | teamOwner (t : TeamData)
  | soleOwner (u : UserData)
  | noOwner
deriving Repr, DecidableEq

/-- The partial payload accepted by ClientApplication._patch. -/
structure AppPayload where
  cover_image : Option String := none
  rpc_origins : Option (List String) := none
  bot_require_code_grant : Option Bool := none
  bot_public : Option Bool := none
  team : Option TeamData := none
  owner : Option UserData := none
deriving Repr, DecidableEq

/-- The Client OAuth2 Application entity: the fields assigned by
ClientApplication._patch (the generic application base fields patched by
its super call are not in the sources and no claim mentions them). -/
structure ClientApplicationEnt where
  cover : Option String
  rpcOrigins : List String
  botRequireCodeGrant : Option Bool
  botPublic : Option Bool
  owner : AppOwner
deriving Repr, DecidableEq

/-- Embedding of ClientApplication._patch
(src/src/structures/ClientApplication.js, lines 11-43): cover_image falls
back to null when falsy, rpc_origins to [], the two bot flags to null when
undefined, and owner is a Team from data.team when present (team wins),
else a user resolved into the global user cache from data.owner when
present, else null. Returns the patched entity and the user cache. -/
def clientApplicationPatch (users : Coll UserData) (_e : ClientApplicationEnt)
    (d : AppPayload) : ClientApplicationEnt × Coll UserData :=
  let cover := match d.cover_image with
    | some s => if s = "" then none else some s
    | none => none
  let rpcOrigins := match d.rpc_origins with
    | some l => l
    | none => []
  let ownerRes : AppOwner × Coll UserData := match d.team with
    | some t => (AppOwner.teamOwner t, users)
    | none => match d.owner with
      | some o =>
        let r := usersAdd users o
        (AppOwner.soleOwner r.2, r.1)
      | none => (AppOwner.noOwner, users)
  ({ cover := cover, rpcOrigins := rpcOrigins,
     botRequireCodeGrant := d.bot_require_code_grant,
     botPublic := d.bot_public, owner := ownerRes.1 }, ownerRes.2)

/-- The entity produced by the create-or-patch step of the ready handler,
before the relationship and notes loops run. -/
def baseEnt (st : ClientState) (pd : ReadyData) : ClientUserEnt :=
  match st.user with
  | some u => (clientUserPatch u st.token pd.user).1
  | none =>
    let userAug := { pd.user with user_settings := pd.user_settings,
                                  user_guild_settings := pd.user_guild_settings }
    (clientUserPatch (freshClientUser userAug.id) st.token userAug).1

/-- The global user cache right before the relationship loop of the ready
handler runs: on first handshake the freshly built client user has been
inserted. -/
def readyUsersPre (st : ClientState) (pd : ReadyData) : Coll UserData :=
  match st.user with
  | some _ => st.users
  | none => cset st.users (baseEnt st pd).id (identityOf (baseEnt st pd))

/-- The entity state the ready handler leaves in the singleton slot:
the patched/constructed entity with friends and blocked filled by the
relationship loop and notes filled by the notes loop when the key is
present. -/
def readyEnt (st : ClientState) (pd : ReadyData) : ClientUserEnt :=
  let e := baseEnt st pd
  let rl := relLoop (readyUsersPre st pd) e.friends e.blocked pd.relationships
  let withRel := { e with friends := rl.2.1, blocked := rl.2.2 }
  match pd.notes with
  | some entries => { withRel with notes := notesLoop withRel.notes entries }
  | none => withRel

/-- A sample prior entity state with every optional field filled and
nonempty cache mappings. -/
def entA : ClientUserEnt :=
  { id := "1", username := JSVal.str "alice", bot := false,
    verified := JSVal.bool true, email := JSVal.str "a@b.c",
    premium := JSVal.bool true, mfaEnabled := JSVal.bool true,
    mobile := JSVal.bool false, settings := some "S",
    guildSettings := [("g1", { guild_id := "g1", dat := "gs" })],
    friends := [("9", { id := "9", username := JSVal.str "bob" })],
    blocked := [],
    notes := [("U", JSVal.str "hi")] }

/-- A sample client state whose singleton entity is entA. -/
def stA : ClientState :=
  { user := some entA,
    users := [("1", { id := "1", username := JSVal.str "alice" })],
    guilds := [], token := JSVal.str "t0" }

/-- A fresh client state: no entity yet, empty caches. -/
def st0 : ClientState :=
  { user := none, users := [], guilds := [], token := JSVal.undef }

/-- A handshake payload that carries user_settings (and no notes). -/
def pdA : ReadyData :=
  { user := { id := "1" }, guilds := [], relationships := [], notes := none,
    user_settings := some "S", user_guild_settings := none }

/-- A handshake payload with no notes key and no settings keys. -/
def pdB : ReadyData :=
  { user := { id := "1" }, guilds := [], relationships := [], notes := none,
    user_settings := none, user_guild_settings := none }

/-- The handshake payload of the spec's relationship-classification
example: A is a friend (type 1), B is blocked (type 2), C has the unknown
type code 99. -/
def pdRel : ReadyData :=
  { user := { id := "me" }, guilds := [],
    relationships :=
      [{ user := { id := "A", username := JSVal.str "a" }, type := 1 },
       { user := { id := "B", username := JSVal.str "b" }, type := 2 },
       { user := { id := "C", username := JSVal.str "c" }, type := 99 }],
    notes := none, user_settings := none, user_guild_settings := none }


/-- A patch payload whose only key is a fresh session token. -/
def pdTok : UserPayload := { token := some "tok123" }

/-- An application entity state before patching. -/
def appE0 : ClientApplicationEnt :=
  { cover := none, rpcOrigins := [], botRequireCodeGrant := none,
    botPublic := none, owner := AppOwner.noOwner }

/-- A sample team payload. -/
def teamT : TeamData := { id := "t1", name := "team" }

/-- A sample owner user payload. -/
def userO : UserData := { id := "7", username := JSVal.str "owner" }

/-- An application payload carrying both team and owner keys. -/
def dTeam : AppPayload := { team := some teamT, owner := some userO }

/-- An application payload carrying only the owner key. -/
def dOwner : AppPayload := { owner := some userO }

/-- An application payload carrying neither team nor owner. -/
def dNone : AppPayload := {}

theorem cget_cset {α : Type} (c : Coll α) (k k1 : String) (v : α) :
    cget (cset c k v) k1 = if k = k1 then some v else cget c k1 := by
  induction c with
  | nil =>
    by_cases h : k = k1 <;> simp [cset, cget, h]
  | cons hd tl ih =>
    obtain ⟨k2, v2⟩ := hd
    by_cases h2 : k2 = k
    · subst h2
      by_cases h : k2 = k1 <;> simp [cset, cget, h]
    · by_cases h : k2 = k1
      · subst h
        simp [cset, cget, h2, Ne.symm h2]
      · simp [cset, cget, h2, h, ih]

theorem cget_cset_self {α : Type} (c : Coll α) (k : String) (v : α) :
    cget (cset c k v) k = some v := by
  simp [cget_cset]

theorem clientUserPatch_collections (e : ClientUserEnt) (tok : JSVal)
    (d : UserPayload) (f b : Coll UserData) (n : Coll JSVal) :
    clientUserPatch { e with friends := f, blocked := b, notes := n } tok d =
      clientUserPatch e tok d := rfl

theorem clientUserPatch_idem (e : ClientUserEnt) (t1 t2 : JSVal) (d : UserPayload) :
    (clientUserPatch (clientUserPatch e t1 d).1 t2 d).1 = (clientUserPatch e t1 d).1 := by
  cases hu : d.username <;> cases hv : d.verified <;> cases hm : d.mfa_enabled <;>
    simp [clientUserPatch, hu, hv, hm] <;>
    by_cases he : e.mfaEnabled = JSVal.undef <;> simp [he]

theorem relLoop_fb_indep (rels : List Relationship) (u1 u2 f b : Coll UserData) :
    (relLoop u1 f b rels).2 = (relLoop u2 f b rels).2 := by
  induction rels generalizing u1 u2 f b with
  | nil => rfl
  | cons rel rest ih =>
    by_cases h1 : rel.type = 1
    · simp only [relLoop, usersAdd, h1, if_pos rfl]
      exact ih _ _ _ _
    · by_cases h2 : rel.type = 2 <;> simp only [relLoop, usersAdd, h1, h2,
        if_neg, if_pos rfl, ite_true, ite_false] <;> exact ih _ _ _ _

theorem relLoop_users_isSome_mono (rels : List Relationship)
    (users f b : Coll UserData) (uid : String)
    (h : (cget users uid).isSome) :
    (cget (relLoop users f b rels).1 uid).isSome := by
  induction rels generalizing users f b with
  | nil => exact h
  | cons rel rest ih =>
    have hs : (cget (cset users rel.user.id rel.user) uid).isSome := by
      rw [cget_cset]
      by_cases hk : rel.user.id = uid <;> simp [hk, h]
    by_cases h1 : rel.type = 1
    · simp only [relLoop, usersAdd, h1, if_pos rfl]
      exact ih _ _ _ hs
    · by_cases h2 : rel.type = 2 <;> simp only [relLoop, usersAdd, h1, h2,
        ite_true, ite_false] <;> exact ih _ _ _ hs

theorem relLoop_users_mem (rels : List Relationship)
    (users f b : Coll UserData) (rel : Relationship) (hmem : rel ∈ rels) :
    (cget (relLoop users f b rels).1 rel.user.id).isSome := by
  induction rels generalizing users f b with
  | nil => cases hmem
  | cons rhd rest ih =>
    rcases List.mem_cons.mp hmem with heq | htl
    · subst heq
      have hs : (cget (cset users rel.user.id rel.user) rel.user.id).isSome := by
        rw [cget_cset_self]; rfl
      by_cases h1 : rel.type = 1
      · simp only [relLoop, usersAdd, h1, if_pos rfl]
        exact relLoop_users_isSome_mono _ _ _ _ _ hs
      · by_cases h2 : rel.type = 2 <;> simp only [relLoop, usersAdd, h1, h2,
          ite_true, ite_false] <;> exact relLoop_users_isSome_mono _ _ _ _ _ hs
    · by_cases h1 : rhd.type = 1
      · simp only [relLoop, usersAdd, h1, if_pos rfl]
        exact ih _ _ _ htl
      · by_cases h2 : rhd.type = 2 <;> simp only [relLoop, usersAdd, h1, h2,
          ite_true, ite_false] <;> exact ih _ _ _ htl


theorem relLoop_cons_one (users f b : Coll UserData) (rel : Relationship)
    (rest : List Relationship) (h : rel.type = 1) :
    relLoop users f b (rel :: rest) =
      relLoop (cset users rel.user.id rel.user) (cset f rel.user.id rel.user) b rest := by
  simp only [relLoop, usersAdd]
  rw [if_pos h]

theorem relLoop_cons_two (users f b : Coll UserData) (rel : Relationship)
    (rest : List Relationship) (h1 : ¬ rel.type = 1) (h2 : rel.type = 2) :
    relLoop users f b (rel :: rest) =
      relLoop (cset users rel.user.id rel.user) f (cset b rel.user.id rel.user) rest := by
  simp only [relLoop, usersAdd]
  rw [if_neg h1, if_pos h2]

theorem relLoop_cons_other (users f b : Coll UserData) (rel : Relationship)
    (rest : List Relationship) (h1 : ¬ rel.type = 1) (h2 : ¬ rel.type = 2) :
    relLoop users f b (rel :: rest) =
      relLoop (cset users rel.user.id rel.user) f b rest := by
  simp only [relLoop, usersAdd]
  rw [if_neg h1, if_neg h2]

theorem relLoop_friends_isSome (rels : List Relationship)
    (users f b : Coll UserData) (uid : String) :
    (cget (relLoop users f b rels).2.1 uid).isSome ↔
      (cget f uid).isSome ∨ ∃ rel ∈ rels, rel.type = 1 ∧ rel.user.id = uid := by
  induction rels generalizing users f b with
  | nil => simp [relLoop]
  | cons rel rest ih =>
    by_cases h1 : rel.type = 1
    · rw [relLoop_cons_one users f b rel rest h1, ih]
      simp only [cget_cset, List.mem_cons, exists_eq_or_imp, h1, true_and]
      by_cases hk : rel.user.id = uid <;> simp [hk] <;> tauto
    · by_cases h2 : rel.type = 2
      · rw [relLoop_cons_two users f b rel rest h1 h2, ih]
        simp only [List.mem_cons, exists_eq_or_imp, h1, false_and, false_or]
      · rw [relLoop_cons_other users f b rel rest h1 h2, ih]
        simp only [List.mem_cons, exists_eq_or_imp, h1, false_and, false_or]

theorem relLoop_blocked_isSome (rels : List Relationship)
    (users f b : Coll UserData) (uid : String) :
    (cget (relLoop users f b rels).2.2 uid).isSome ↔
      (cget b uid).isSome ∨ ∃ rel ∈ rels, rel.type = 2 ∧ rel.user.id = uid := by
  induction rels generalizing users f b with
  | nil => simp [relLoop]
  | cons rel rest ih =>
    by_cases h1 : rel.type = 1
    · rw [relLoop_cons_one users f b rel rest h1, ih]
      have h2 : ¬ rel.type = 2 := by omega
      simp only [List.mem_cons, exists_eq_or_imp, h2, false_and, false_or]
    · by_cases h2 : rel.type = 2
      · rw [relLoop_cons_two users f b rel rest h1 h2, ih]
        simp only [cget_cset, List.mem_cons, exists_eq_or_imp, h2, true_and]
        by_cases hk : rel.user.id = uid <;> simp [hk] <;> tauto
      · rw [relLoop_cons_other users f b rel rest h1 h2, ih]
        simp only [List.mem_cons, exists_eq_or_imp, h2, false_and, false_or]

theorem relLoop_friends_get (rels : List Relationship)
    (users f b : Coll UserData) (uid : String) (u : UserData)
    (h : cget (relLoop users f b rels).2.1 uid = some u) :
    cget f uid = some u ∨
      ∃ rel ∈ rels, rel.type = 1 ∧ rel.user = u ∧ rel.user.id = uid := by
  induction rels generalizing users f b with
  | nil => exact Or.inl h
  | cons rel rest ih =>
    by_cases h1 : rel.type = 1
    · rw [relLoop_cons_one users f b rel rest h1] at h
      rcases ih _ _ _ h with hf | ⟨r, hr, hrest⟩
      · rw [cget_cset] at hf
        by_cases hk : rel.user.id = uid
        · rw [if_pos hk] at hf
          exact Or.inr ⟨rel, List.mem_cons_self rel rest, h1, Option.some_inj.mp hf, hk⟩
        · rw [if_neg hk] at hf
          exact Or.inl hf
      · exact Or.inr ⟨r, List.mem_cons_of_mem rel hr, hrest⟩
    · by_cases h2 : rel.type = 2
      · rw [relLoop_cons_two users f b rel rest h1 h2] at h
        rcases ih _ _ _ h with hf | ⟨r, hr, hrest⟩
        · exact Or.inl hf
        · exact Or.inr ⟨r, List.mem_cons_of_mem rel hr, hrest⟩
      · rw [relLoop_cons_other users f b rel rest h1 h2] at h
        rcases ih _ _ _ h with hf | ⟨r, hr, hrest⟩
        · exact Or.inl hf
        · exact Or.inr ⟨r, List.mem_cons_of_mem rel hr, hrest⟩

theorem relLoop_blocked_get (rels : List Relationship)
    (users f b : Coll UserData) (uid : String) (u : UserData)
    (h : cget (relLoop users f b rels).2.2 uid = some u) :
    cget b uid = some u ∨
      ∃ rel ∈ rels, rel.type = 2 ∧ rel.user = u ∧ rel.user.id = uid := by
  induction rels generalizing users f b with
  | nil => exact Or.inl h
  | cons rel rest ih =>
    by_cases h1 : rel.type = 1
    · rw [relLoop_cons_one users f b rel rest h1] at h
      rcases ih _ _ _ h with hf | ⟨r, hr, hrest⟩
      · exact Or.inl hf
      · exact Or.inr ⟨r, List.mem_cons_of_mem rel hr, hrest⟩
    · by_cases h2 : rel.type = 2
      · rw [relLoop_cons_two users f b rel rest h1 h2] at h
        rcases ih _ _ _ h with hf | ⟨r, hr, hrest⟩
        · rw [cget_cset] at hf
          by_cases hk : rel.user.id = uid
          · rw [if_pos hk] at hf
            exact Or.inr ⟨rel, List.mem_cons_self rel rest, h2, Option.some_inj.mp hf, hk⟩
          · rw [if_neg hk] at hf
            exact Or.inl hf
        · exact Or.inr ⟨r, List.mem_cons_of_mem rel hr, hrest⟩
      · rw [relLoop_cons_other users f b rel rest h1 h2] at h
        rcases ih _ _ _ h with hf | ⟨r, hr, hrest⟩
        · exact Or.inl hf
        · exact Or.inr ⟨r, List.mem_cons_of_mem rel hr, hrest⟩

theorem baseEnt_friends (st : ClientState) (pd : ReadyData) :
    (baseEnt st pd).friends = [] := by
  cases hu : st.user <;> simp [baseEnt, clientUserPatch, hu]

theorem baseEnt_blocked (st : ClientState) (pd : ReadyData) :
    (baseEnt st pd).blocked = [] := by
  cases hu : st.user <;> simp [baseEnt, clientUserPatch, hu]

theorem baseEnt_notes (st : ClientState) (pd : ReadyData) :
    (baseEnt st pd).notes = [] := by
  cases hu : st.user <;> simp [baseEnt, clientUserPatch, hu]

theorem readyHandler_user (st : ClientState) (pd : ReadyData) (s : Nat) :
    (readyHandler st pd s).user = some (readyEnt st pd) := by
  cases hu : st.user <;> cases hn : pd.notes <;>
    simp [readyHandler, readyEnt, baseEnt, readyUsersPre, withUser,
      clientFriends, clientBlocked, hu, hn]

theorem readyHandler_users (st : ClientState) (pd : ReadyData) (s : Nat) :
    (readyHandler st pd s).users =
      (relLoop (readyUsersPre st pd) [] [] pd.relationships).1 := by
  cases hu : st.user <;> cases hn : pd.notes <;>
    simp [readyHandler, baseEnt, readyUsersPre, withUser,
      clientFriends, clientBlocked, clientUserPatch, hu, hn]

theorem readyEnt_update (st : ClientState) (pd : ReadyData) :
    readyEnt st pd =
      { baseEnt st pd with
          friends := (relLoop (readyUsersPre st pd) [] [] pd.relationships).2.1,
          blocked := (relLoop (readyUsersPre st pd) [] [] pd.relationships).2.2,
          notes := match pd.notes with
            | some entries => notesLoop [] entries
            | none => [] } := by
  cases hn : pd.notes <;>
    simp only [readyEnt, hn, baseEnt_friends, baseEnt_blocked, baseEnt_notes]

theorem readyHandler_friends (st : ClientState) (pd : ReadyData) (s : Nat) :
    clientFriends (readyHandler st pd s) =
      (relLoop (readyUsersPre st pd) [] [] pd.relationships).2.1 := by
  rw [clientFriends, readyHandler_user, readyEnt_update]

theorem readyHandler_blocked (st : ClientState) (pd : ReadyData) (s : Nat) :
    clientBlocked (readyHandler st pd s) =
      (relLoop (readyUsersPre st pd) [] [] pd.relationships).2.2 := by
  rw [clientBlocked, readyHandler_user, readyEnt_update]

theorem readyHandler_notes (st : ClientState) (pd : ReadyData) (s : Nat) :
    clientNotes (readyHandler st pd s) =
      match pd.notes with
      | some entries => notesLoop [] entries
      | none => [] := by
  rw [clientNotes, readyHandler_user, readyEnt_update]

/-- Claim C10: for every payload and every prior entity state, immediately
after ClientUser._patch returns, the friends, blocked and notes mappings
are freshly replaced empty collections — anything cached in them before
the patch is discarded by the patch itself. -/
theorem claim_C10_patch_resets_collections (e : ClientUserEnt) (tok : JSVal)
    (d : UserPayload) :
    (clientUserPatch e tok d).1.friends = [] ∧
    (clientUserPatch e tok d).1.blocked = [] ∧
    (clientUserPatch e tok d).1.notes = [] :=
  ⟨rfl, rfl, rfl⟩

/-- Claim C1 counterexample: patching entA with a payload in which every
key is absent does not leave email (nor friends) unchanged — _patch
recomputes email from the missing key (undefined) and rebuilds the friends
collection empty, so omission is an implicit clear for these fields and
the claimed field independence fails. -/
theorem claim_C1_counterexample :
    (clientUserPatch entA JSVal.undef {}).1.email ≠ entA.email ∧
    (clientUserPatch entA JSVal.undef {}).1.friends ≠ entA.friends := by
  constructor <;> decide

/-- Claim C1 as amended: field independence holds only for the
presence-guarded fields — the spec-modelled identity fields, verified, and
mfa_enabled (the latter once it is no longer undefined) are retained when
their keys are absent, and setting any one of them touches no other
guarded field; but email, premium, mobile, settings and guildSettings are
recomputed from the payload on every patch (an absent key resets them to
undefined / null / null / null / empty respectively), and friends, blocked
and notes are replaced by fresh empty collections on every patch. -/
theorem claim_C1_field_independence (e : ClientUserEnt) (tok : JSVal)
    (d : UserPayload) :
    (d.username = none → (clientUserPatch e tok d).1.username = e.username) ∧
    (d.verified = none → (clientUserPatch e tok d).1.verified = e.verified) ∧
    (d.mfa_enabled = none → e.mfaEnabled ≠ JSVal.undef →
      (clientUserPatch e tok d).1.mfaEnabled = e.mfaEnabled) ∧
    (d.email = none → (clientUserPatch e tok d).1.email = JSVal.undef) ∧
    (d.premium = none → (clientUserPatch e tok d).1.premium = JSVal.null) ∧
    (d.mobile = none → (clientUserPatch e tok d).1.mobile = JSVal.null) ∧
    (d.user_settings = none → (clientUserPatch e tok d).1.settings = none) ∧
    (d.user_guild_settings = none →
      (clientUserPatch e tok d).1.guildSettings = []) ∧
    (clientUserPatch e tok d).1.friends = [] ∧
    (clientUserPatch e tok d).1.blocked = [] ∧
    (clientUserPatch e tok d).1.notes = [] ∧
    (clientUserPatch e tok d).1.id = e.id ∧
    (clientUserPatch e tok d).1.bot = e.bot := by
  refine ⟨?_, ?_, ?_, ?_, ?_, ?_, ?_, ?_, rfl, rfl, rfl, rfl, rfl⟩
  · intro h; simp [clientUserPatch, h]
  · intro h; simp [clientUserPatch, h]
  · intro h hne; simp only [clientUserPatch, h]
    exact if_neg hne
  · intro h; simp [clientUserPatch, h]
  · intro h; simp [clientUserPatch, h]
  · intro h; simp [clientUserPatch, h]
  · intro h; simp [clientUserPatch, h]
  · intro h; simp [clientUserPatch, h]

/-- Witness for the amended C1 at a concrete prior state (entA, every
optional field filled) and the all-keys-absent payload. -/
theorem claim_C1_witness :
    (clientUserPatch entA JSVal.undef {}).1.username = entA.username ∧
    (clientUserPatch entA JSVal.undef {}).1.verified = entA.verified ∧
    (clientUserPatch entA JSVal.undef {}).1.mfaEnabled = entA.mfaEnabled ∧
    (clientUserPatch entA JSVal.undef {}).1.email = JSVal.undef ∧
    (clientUserPatch entA JSVal.undef {}).1.settings = none := by
  have h := claim_C1_field_independence entA JSVal.undef {}
  exact ⟨h.1 rfl, h.2.1 rfl, h.2.2.1 rfl (by decide), h.2.2.2.1 rfl,
    h.2.2.2.2.2.2.1 rfl⟩

/-- Claim C3: handle reads the previously cached note — null when the id
is absent — as old, normalizes the new note to null when the string is
empty and to the string itself otherwise, stores exactly that value under
id (the single cache mutation of the invocation), returns (old, updated),
and afterwards notes.get(id) yields the updated value. -/
theorem claim_C3_note_update_contract (notes : Coll JSVal) (d : NoteEvent) :
    (cget notes d.id = none → (noteUpdateHandle notes d).old = JSVal.null) ∧
    (noteUpdateHandle notes d).old = jsGet notes d.id ∧
    (noteUpdateHandle notes d).updated =
      (if d.note = "" then JSVal.null else JSVal.str d.note) ∧
    applyNoteEffs notes (noteUpdateHandle notes d).trace =
      cset notes d.id (noteUpdateHandle notes d).updated ∧
    cget (applyNoteEffs notes (noteUpdateHandle notes d).trace) d.id =
      some (noteUpdateHandle notes d).updated := by
  refine ⟨?_, rfl, rfl, rfl, ?_⟩
  · intro h; simp [noteUpdateHandle, jsGet, h]
  · simp [noteUpdateHandle, applyNoteEffs, cget_cset]

/-- Witness for C3 at the spec's own examples: clearing a prior note "hi"
for U yields old "hi", updated null, and notes.get(U) null afterwards;
setting "hi" on a fresh cache yields old null and updated "hi". -/
theorem claim_C3_witness :
    (noteUpdateHandle [("U", JSVal.str "hi")] { id := "U", note := "" }).old =
      JSVal.str "hi" ∧
    (noteUpdateHandle [("U", JSVal.str "hi")] { id := "U", note := "" }).updated =
      JSVal.null ∧
    cget (applyNoteEffs [("U", JSVal.str "hi")]
      (noteUpdateHandle [("U", JSVal.str "hi")] { id := "U", note := "" }).trace) "U" =
      some JSVal.null ∧
    (noteUpdateHandle [] { id := "U", note := "hi" }).old = JSVal.null ∧
    (noteUpdateHandle [] { id := "U", note := "hi" }).updated = JSVal.str "hi" := by
  have h1 := claim_C3_note_update_contract [("U", JSVal.str "hi")]
    { id := "U", note := "" }
  have h2 := claim_C3_note_update_contract ([] : Coll JSVal) { id := "U", note := "hi" }
  refine ⟨by decide, by decide, ?_, h2.1 rfl, by decide⟩
  exact h1.2.2.2.2.trans (by decide)

/-- Claim C4: in every invocation of the note-update handler the cache
commit precedes the emitted notification in the effect trace, the
notification carries an old value equal to the cache state immediately
before the commit, and the cache an observer reads while the notification
runs already holds the updated value. -/
theorem claim_C4_commit_before_notify (notes : Coll JSVal) (d : NoteEvent) :
    ∃ i j, i < j ∧
      (noteUpdateHandle notes d).trace.get? i =
        some (NoteEff.cacheSet d.id (noteUpdateHandle notes d).updated) ∧
      (noteUpdateHandle notes d).trace.get? j =
        some (NoteEff.emit d.id (noteUpdateHandle notes d).old
          (noteUpdateHandle notes d).updated) ∧
      (noteUpdateHandle notes d).old =
        jsGet (applyNoteEffs notes ((noteUpdateHandle notes d).trace.take i)) d.id ∧
      cget (applyNoteEffs notes ((noteUpdateHandle notes d).trace.take j)) d.id =
        some (noteUpdateHandle notes d).updated := by
  refine ⟨0, 1, Nat.zero_lt_one, rfl, rfl, rfl, ?_⟩
  simp [noteUpdateHandle, applyNoteEffs, cget_cset]

/-- Claim C6: _patch forwards a (nonempty) payload token to the
client-wide credential slot, leaves the slot unchanged when the payload
carries no token (absent key, and likewise the falsy empty string), and
never stores the token on the entity: the patched entity is identical
whatever the token key holds. -/
theorem claim_C6_credential_side_channel (e : ClientUserEnt) (tok : JSVal)
    (d : UserPayload) :
    (∀ t, d.token = some t → t ≠ "" →
      (clientUserPatch e tok d).2 = JSVal.str t) ∧
    (d.token = none → (clientUserPatch e tok d).2 = tok) ∧
    (d.token = some "" → (clientUserPatch e tok d).2 = tok) ∧
    (∀ t2, (clientUserPatch e tok { d with token := t2 }).1 =
      (clientUserPatch e tok d).1) := by
  refine ⟨?_, ?_, ?_, fun t2 => rfl⟩
  · intro t ht hne; simp [clientUserPatch, ht, hne]
  · intro ht; simp [clientUserPatch, ht]
  · intro ht; simp [clientUserPatch, ht]

/-- Witness for C6: a payload carrying token "tok123" rewrites the slot to
it, and the all-keys-absent payload leaves the slot untouched. -/
theorem claim_C6_witness :
    (clientUserPatch entA (JSVal.str "t0") pdTok).2 = JSVal.str "tok123" ∧
    (clientUserPatch entA (JSVal.str "t0") {}).2 = JSVal.str "t0" := by
  have h1 := claim_C6_credential_side_channel entA (JSVal.str "t0") pdTok
  have h2 := claim_C6_credential_side_channel entA (JSVal.str "t0") {}
  exact ⟨h1.1 "tok123" rfl (by decide), h2.2.1 rfl⟩

/-- Claim C8: when the apiClient PATCH request of edit fails, the failure
is propagated as the operation's result and the client state — the
entity, its cache mappings and the credential slot — is returned exactly
as it was: the merge and the token forwarding live in the success
continuation only. -/
theorem claim_C8_edit_failure_atomicity (st : ClientState) (u : ClientUserEnt)
    (d : EditData) (pc : Passcode) (e : ApiErr) :
    clientUserEdit st u d pc (Except.error e) = (st, Except.error e) := rfl

/-- Claim C9: ClientApplication._patch resolves owner as the tagged union
the spec describes: a Team built from the team key when present (team
takes precedence over owner), else a user reference resolved into the
global user cache from the owner key when present, else no owner. -/
theorem claim_C9_owner_resolution (users : Coll UserData)
    (e : ClientApplicationEnt) (d : AppPayload) :
    (∀ t, d.team = some t →
      (clientApplicationPatch users e d).1.owner = AppOwner.teamOwner t) ∧
    (∀ o, d.team = none → d.owner = some o →
      (clientApplicationPatch users e d).1.owner = AppOwner.soleOwner o ∧
      cget (clientApplicationPatch users e d).2 o.id = some o) ∧
    (d.team = none → d.owner = none →
      (clientApplicationPatch users e d).1.owner = AppOwner.noOwner) := by
  refine ⟨?_, ?_, ?_⟩
  · intro t ht; simp [clientApplicationPatch, ht]
  · intro o ht ho
    constructor
    · simp [clientApplicationPatch, ht, ho, usersAdd]
    · simp [clientApplicationPatch, ht, ho, usersAdd, cget_cset]
  · intro ht ho; simp [clientApplicationPatch, ht, ho]

/-- Witness for C9 at concrete payloads: the team key wins even when an
owner key is also present, a lone owner key yields a sole owner resolved
into the user cache, and neither key yields no owner. -/
theorem claim_C9_witness :
    (clientApplicationPatch [] appE0 dTeam).1.owner = AppOwner.teamOwner teamT ∧
    (clientApplicationPatch [] appE0 dOwner).1.owner = AppOwner.soleOwner userO ∧
    cget (clientApplicationPatch [] appE0 dOwner).2 "7" = some userO ∧
    (clientApplicationPatch [] appE0 dNone).1.owner = AppOwner.noOwner := by
  have ht := claim_C9_owner_resolution [] appE0 dTeam
  have ho := claim_C9_owner_resolution [] appE0 dOwner
  have hn := claim_C9_owner_resolution [] appE0 dNone
  refine ⟨ht.1 teamT rfl, (ho.2.1 userO rfl rfl).1, ?_, hn.2.2 rfl rfl⟩
  have hc := (ho.2.1 userO rfl rfl).2
  exact hc

/-- Claim C5: processing the handshake resolves every relationship
record's user into the global user cache; afterwards friends holds exactly
the users of type-1 records and blocked exactly those of type-2 records
(any other type code leaves its user in the cache but in neither mapping,
since the patch empties both mappings before the loop runs). -/
theorem claim_C5_relationship_classification (st : ClientState)
    (pd : ReadyData) (s : Nat) :
    (∀ rel ∈ pd.relationships,
      (cget (readyHandler st pd s).users rel.user.id).isSome) ∧
    (∀ uid, (cget (clientFriends (readyHandler st pd s)) uid).isSome ↔
      ∃ rel ∈ pd.relationships, rel.type = 1 ∧ rel.user.id = uid) ∧
    (∀ uid, (cget (clientBlocked (readyHandler st pd s)) uid).isSome ↔
      ∃ rel ∈ pd.relationships, rel.type = 2 ∧ rel.user.id = uid) ∧
    (∀ uid u, cget (clientFriends (readyHandler st pd s)) uid = some u →
      ∃ rel ∈ pd.relationships, rel.type = 1 ∧ rel.user = u ∧ rel.user.id = uid) ∧
    (∀ uid u, cget (clientBlocked (readyHandler st pd s)) uid = some u →
      ∃ rel ∈ pd.relationships, rel.type = 2 ∧ rel.user = u ∧ rel.user.id = uid) := by
  refine ⟨?_, ?_, ?_, ?_, ?_⟩
  · intro rel hmem
    rw [readyHandler_users]
    exact relLoop_users_mem _ _ _ _ rel hmem
  · intro uid
    rw [readyHandler_friends, relLoop_friends_isSome]
    simp [cget]
  · intro uid
    rw [readyHandler_blocked, relLoop_blocked_isSome]
    simp [cget]
  · intro uid u h
    rw [readyHandler_friends] at h
    rcases relLoop_friends_get _ _ _ _ _ _ h with hf | he
    · simp [cget] at hf
    · exact he
  · intro uid u h
    rw [readyHandler_blocked] at h
    rcases relLoop_blocked_get _ _ _ _ _ _ h with hf | he
    · simp [cget] at hf
    · exact he

/-- Witness for C5 at the spec's example relationships (A friend, B
blocked, C with unknown type 99) from a fresh client: C lands in the user
cache, A only in friends, B only in blocked. -/
theorem claim_C5_witness :
    (cget (readyHandler st0 pdRel 0).users "C").isSome ∧
    (cget (clientFriends (readyHandler st0 pdRel 0)) "A").isSome ∧
    ¬ (cget (clientFriends (readyHandler st0 pdRel 0)) "C").isSome ∧
    ¬ (cget (clientBlocked (readyHandler st0 pdRel 0)) "C").isSome ∧
    (cget (clientBlocked (readyHandler st0 pdRel 0)) "B").isSome := by
  have h := claim_C5_relationship_classification st0 pdRel 0
  refine ⟨h.1 { user := { id := "C", username := JSVal.str "c" }, type := 99 }
      (by decide), ?_, by decide, by decide, ?_⟩
  · exact (h.2.1 "A").2
      ⟨{ user := { id := "A", username := JSVal.str "a" }, type := 1 },
        by decide, rfl, rfl⟩
  · exact (h.2.2.1 "B").2
      ⟨{ user := { id := "B", username := JSVal.str "b" }, type := 2 },
        by decide, rfl, rfl⟩

/-- Claim C7 counterexample: with an existing entity holding a note for
"U", a handshake whose payload lacks the notes key does not leave that
note in place — the patch applied by the handler replaces the notes
mapping with a fresh empty collection, so the note is gone. -/
theorem claim_C7_counterexample :
    cget (clientNotes stA) "U" = some (JSVal.str "hi") ∧
    cget (clientNotes (readyHandler stA pdB 0)) "U" = none := by
  constructor <;> decide

/-- Claim C7 as amended: when the handshake payload lacks the notes key
the note-population loop is skipped, but the patch the handler applies to
the entity (on creation and on re-handshake alike) has already replaced
the notes mapping with a fresh empty collection — so after such a
handshake the notes mapping is empty and notes cached before a
re-handshake are discarded rather than preserved. -/
theorem claim_C7_absent_notes (st : ClientState) (pd : ReadyData) (s : Nat)
    (h : pd.notes = none) :
    clientNotes (readyHandler st pd s) = [] := by
  rw [readyHandler_notes, h]

/-- Witness for the amended C7: a client whose entity holds a note,
handshaken with a payload without notes, ends with an empty notes
mapping. -/
theorem claim_C7_witness : clientNotes (readyHandler stA pdB 0) = [] :=
  claim_C7_absent_notes stA pdB 0 rfl

theorem UserPayload_update_none (p : UserPayload)
    (h3 : p.user_settings = none) (h4 : p.user_guild_settings = none) :
    ({ p with user_settings := none, user_guild_settings := none } : UserPayload) = p := by
  cases p
  simp_all

/-- Claim C2 counterexample: a handshake payload carrying user_settings is
not idempotent — the second application patches the existing entity with
payload.user alone (user_settings is attached only on creation), so
settings collapses to null and the final entity differs from the
single-application one. -/
theorem claim_C2_counterexample :
    (readyHandler (readyHandler st0 pdA 0) pdA 0).user ≠
      (readyHandler st0 pdA 0).user := by
  decide

/-- Claim C2 as amended: the bootstrap handler never creates a second
Authoritative Account Entity — after a handshake the singleton exists and
a repeated handshake only patches it in place — and, provided the payload
carries no user_settings/user_guild_settings keys (the keys the creation
path attaches onto the user payload but the re-handshake path does not),
applying the same handshake payload twice yields exactly the same final
entity state as applying it once. -/
theorem claim_C2_idempotent_bootstrap (st : ClientState) (pd : ReadyData)
    (s1 s2 : Nat) (h1 : pd.user_settings = none)
    (h2 : pd.user_guild_settings = none)
    (h3 : pd.user.user_settings = none)
    (h4 : pd.user.user_guild_settings = none) :
    (readyHandler (readyHandler st pd s1) pd s2).user =
      (readyHandler st pd s1).user ∧
    ((readyHandler st pd s1).user).isSome := by
  have hR1 := readyHandler_user st pd s1
  have hbase : baseEnt (readyHandler st pd s1) pd = baseEnt st pd := by
    simp only [baseEnt, hR1]
    rw [readyEnt_update, clientUserPatch_collections]
    cases hu : st.user
    · simp only [baseEnt, hu]
      rw [h1, h2, UserPayload_update_none pd.user h3 h4]
      exact clientUserPatch_idem _ _ _ _
    · simp only [baseEnt, hu]
      exact clientUserPatch_idem _ _ _ _
  constructor
  · rw [readyHandler_user (readyHandler st pd s1) pd s2, readyHandler_user st pd s1]
    have hfb := relLoop_fb_indep pd.relationships
      (readyUsersPre (readyHandler st pd s1) pd) (readyUsersPre st pd) [] []
    have hf1 : (relLoop (readyUsersPre (readyHandler st pd s1) pd) [] []
        pd.relationships).2.1 =
        (relLoop (readyUsersPre st pd) [] [] pd.relationships).2.1 :=
      congrArg Prod.fst hfb
    have hf2 : (relLoop (readyUsersPre (readyHandler st pd s1) pd) [] []
        pd.relationships).2.2 =
        (relLoop (readyUsersPre st pd) [] [] pd.relationships).2.2 :=
      congrArg Prod.snd hfb
    rw [readyEnt_update, readyEnt_update, hbase, hf1, hf2]
  · rw [hR1]
    rfl

/-- Witness for the amended C2: from a fresh client, the handshake payload
pdB (no settings keys) applied twice leaves exactly the state a single
application leaves, and the singleton exists. -/
theorem claim_C2_witness :
    (readyHandler (readyHandler st0 pdB 0) pdB 0).user =
      (readyHandler st0 pdB 0).user ∧
    ((readyHandler st0 pdB 0).user).isSome :=
  claim_C2_idempotent_bootstrap st0 pdB 0 0 rfl rfl rfl rfl
